import Mathlib

/-!
Shallow embedding of the binary primitives of `src/c++/utils.cpp`: the
Bitcoin-style varint codec (`move_forward`, `read_varint`, `varint`), the
double-SHA256 drivers (`double_sha256`, `double_sha256_two_32_inputs`) and
the message framer (`prepare_message`).  Byte buffers are `List Nat` whose
entries are below 256; machine arithmetic is `Nat` with explicit reductions
modulo `2 ^ w` wherever the C++ performs a narrowing conversion.
-/

namespace RelayNode

/-- Result of `read_varint`: `ok val pos` is a normal return with the caller's
iterator at index `pos`; `err pos` models a thrown `read_exception` with the
caller's iterator left at index `pos` (the iterator is passed by reference, so
advances made before the throw persist). -/
inductive VarintResult where
  | ok (val : Nat) (pos : Nat)
  | err (pos : Nat)
deriving DecidableEq

/-- `move_forward` (utils.cpp lines 26–30) on an index cursor into a buffer of
length `len`: the pointer comparison `it > end - i` is `pos + i > len`.  On
success the cursor advances by `i`; on failure nothing is advanced and
`read_exception` is thrown (`none`). -/
def move_forward (len pos i : Nat) : Option Nat :=
  if len < pos + i then none else some (pos + i)

/-- Conversion of the C++ `int`-typed OR-combination in the `0xfe` branch of
`read_varint` to the `uint64_t` return type: the bit pattern `w < 2 ^ 32`
is an `int` value that is negative when `w ≥ 2 ^ 31` (the byte shifted by 24
reaches the sign bit), and converting that negative `int` to `uint64_t`
reduces it modulo `2 ^ 64`, i.e. sign-extends. -/
def int32_to_u64 (w : Nat) : Nat :=
  if w < 2147483648 then w else w + 0xffffffff00000000

/-- `read_varint` (utils.cpp lines 32–54) over a byte buffer and a cursor
index.  Bytes already consumed are re-read as `*(it - k)`, here
`buf.getD (p - k) 0` (the defaulted lookup is never out of range because every
read position was bounds-checked by `move_forward`). -/
def read_varint (buf : List Nat) (pos : Nat) : VarintResult :=
  match move_forward buf.length pos 1 with
  | none => .err pos
  | some p1 =>
    let first := buf.getD (p1 - 1) 0
    if first < 0xfd then
      .ok first p1
    else if first = 0xfd then
      match move_forward buf.length p1 2 with
      | none => .err p1
      | some p => .ok ((buf.getD (p - 1) 0) <<< 8 ||| buf.getD (p - 2) 0) p
    else if first = 0xfe then
      match move_forward buf.length p1 4 with
      | none => .err p1
      | some p =>
        .ok (int32_to_u64 ((buf.getD (p - 1) 0) <<< 24 ||| (buf.getD (p - 2) 0) <<< 16 |||
          (buf.getD (p - 3) 0) <<< 8 ||| buf.getD (p - 4) 0)) p
    else
      match move_forward buf.length p1 8 with
      | none => .err p1
      | some p =>
        .ok ((buf.getD (p - 1) 0) <<< 56 ||| (buf.getD (p - 2) 0) <<< 48 |||
          (buf.getD (p - 3) 0) <<< 40 ||| (buf.getD (p - 4) 0) <<< 32 |||
          (buf.getD (p - 5) 0) <<< 24 ||| (buf.getD (p - 6) 0) <<< 16 |||
          (buf.getD (p - 7) 0) <<< 8 ||| buf.getD (p - 8) 0) p

/-- Byte image of `htole16` of a `uint16_t`, least significant byte first. -/
def le16 (x : Nat) : List Nat := [x % 256, x / 256 % 256]

/-- Byte image of `htole32` of a `uint32_t`, least significant byte first. -/
def le32 (x : Nat) : List Nat :=
  [x % 256, x / 256 % 256, x / 65536 % 256, x / 16777216 % 256]

/-- Byte image of `htole64` of a `uint64_t`, least significant byte first. -/
def le64 (x : Nat) : List Nat :=
  [x % 256, x / 256 % 256, x / 65536 % 256, x / 16777216 % 256,
   x / 4294967296 % 256, x / 1099511627776 % 256,
   x / 281474976710656 % 256, x / 72057594037927936 % 256]

/-- `varint` (utils.cpp lines 56–77).  The C++ parameter is `uint32_t`, so an
argument is first reduced modulo `2 ^ 32` (the conversion performed at every
call boundary); the final `0xff` branch is kept exactly as in the source even
though it is unreachable for a `uint32_t`. -/
def varint (size0 : Nat) : List Nat :=
  let size := size0 % 4294967296
  if size < 0xfd then
    [size]
  else if size ≤ 0xffff then
    0xfd :: le16 size
  else if size ≤ 0xffffffff then
    0xfe :: le32 size
  else
    0xff :: le64 size

/-- Claim C1: the varint round-trip `decode (encode v) = v` fails on the code.
At `v = 0x80000000` — a value the `uint32_t` encoder accepts — the encoder
emits the minimal `0xfe` form, but the decoder's `0xfe` branch ORs the four
bytes in 32-bit signed `int` arithmetic and sign-extends on conversion to
`uint64_t` (unlike the `0xff` branch, which casts every byte to `uint64_t`),
so decoding returns `0xffffffff80000000`, not `v`. -/
theorem varint_roundtrip_sign_extended :
    read_varint (varint 0x80000000) 0 = VarintResult.ok 0xffffffff80000000 5 ∧
    (0xffffffff80000000 : Nat) ≠ 0x80000000 := by
  exact ⟨by decide, by decide⟩

/-- Claim C2: on `0xfe` followed by the little-endian bytes of `0x80000000`,
`read_varint` does advance the cursor by 5 but returns
`0xffffffff80000000` — the high 32 bits are set — because the top byte
`0x80` shifted by 24 overflows into the `int` sign bit and the conversion of
the negative `int` to `uint64_t` sign-extends.  The claim that the result is
always the little-endian `u32`, below `2 ^ 32`, is false for `b3 ≥ 0x80`. -/
theorem read_varint_fe_sign_extended :
    read_varint [0xfe, 0, 0, 0, 0x80] 0 = VarintResult.ok 0xffffffff80000000 5 ∧
    ¬ (0xffffffff80000000 : Nat) < 2 ^ 32 := by
  exact ⟨by decide, by decide⟩

/-- Claim C3, counterexample: decoding the one-byte buffer `[0xff]` does fail
(`read_exception`, the `TruncatedInput` of the spec), but the caller's cursor
is left at index 1, not restored to 0: the one-byte read of the 0xff marker
had already advanced the by-reference iterator before the atomic 8-byte read
was refused. -/
theorem read_varint_ff_cursor_moved :
    read_varint [0xff] 0 ≠ VarintResult.err 0 ∧
    read_varint [0xff] 0 = VarintResult.err 1 := by
  exact ⟨by decide, by decide⟩

/-- Claim C3, amended: on an exhausted buffer `read_varint` fails with the
cursor untouched; on a `0xff` marker byte followed by fewer than 8 further
bytes it fails having consumed exactly the marker byte (cursor advanced by
1), the 8-byte read itself being refused atomically before consuming
anything. -/
theorem read_varint_truncation (buf : List Nat) (pos : Nat) :
    (buf.length ≤ pos → read_varint buf pos = VarintResult.err pos) ∧
    (buf.getD pos 0 = 0xff → pos < buf.length → buf.length < pos + 9 →
      read_varint buf pos = VarintResult.err (pos + 1)) := by
  constructor
  · intro h
    have h1 : move_forward buf.length pos 1 = none := by
      unfold move_forward
      rw [if_pos (by omega)]
    simp [read_varint, h1]
  · intro hff hlt hshort
    have h1 : move_forward buf.length pos 1 = some (pos + 1) := by
      unfold move_forward
      rw [if_neg (by omega)]
    have h8 : move_forward buf.length (pos + 1) 8 = none := by
      unfold move_forward
      rw [if_pos (by omega)]
    simp only [List.getD_eq_getElem?_getD] at hff
    simp [read_varint, h1, h8, hff]

/-- Witness for `read_varint_truncation` at the empty buffer and at `[0xff]`. -/
theorem read_varint_truncation_w :
    read_varint [] 0 = VarintResult.err 0 ∧
    read_varint [0xff] 0 = VarintResult.err 1 :=
  ⟨(read_varint_truncation [] 0).1 (by decide),
   (read_varint_truncation [0xff] 0).2 (by decide) (by decide) (by decide)⟩

/-- Claim C9: the `0xfd` branch of `read_varint` returns the little-endian
`u16` of the two bytes after the marker, whatever its value — non-minimal
encodings are accepted — and the cursor advances by 3. -/
theorem read_varint_fd_little_endian (b0 b1 : Nat) (hb0 : b0 < 256)
    (_hb1 : b1 < 256) :
    read_varint [0xfd, b0, b1] 0 = VarintResult.ok (b0 + 256 * b1) 3 := by
  have h1 : read_varint [0xfd, b0, b1] 0 = VarintResult.ok (b1 <<< 8 ||| b0) 3 := rfl
  have hv : b1 <<< 8 ||| b0 = b0 + 256 * b1 := by
    have h2 : 2 ^ 8 * b1 + b0 = 2 ^ 8 * b1 ||| b0 :=
      Nat.mul_add_lt_is_or (by omega) b1
    have h3 : (2 : Nat) ^ 8 = 256 := by norm_num
    rw [Nat.shiftLeft_eq, Nat.mul_comm, ← h2, h3]
    omega
  rw [h1, hv]

/-- Witness for `read_varint_fd_little_endian` at the spec's example
`0xfd 0x01 0x00`, a non-minimal encoding of 1. -/
theorem read_varint_fd_little_endian_w :
    (1 : Nat) < 256 ∧ (0 : Nat) < 256 ∧
    read_varint [0xfd, 1, 0] 0 = VarintResult.ok (1 + 256 * 0) 3 :=
  ⟨by decide, by decide, read_varint_fd_little_endian 1 0 (by decide) (by decide)⟩

/-- Claim C10: over its `uint32_t` domain the encoder only ever produces the
1-, 3- or 5-byte forms; the `0xff`-marked 9-byte branch is unreachable, and
no emitted first byte is `0xff`. -/
theorem varint_never_nine_bytes (size : Nat) :
    ((varint size).length = 1 ∨ (varint size).length = 3 ∨
      (varint size).length = 5) ∧
    (varint size).getD 0 0 ≠ 0xff := by
  have hlt : size % 4294967296 < 4294967296 := Nat.mod_lt _ (by norm_num)
  simp only [varint]
  split_ifs with h1 h2 h3
  · refine ⟨Or.inl rfl, ?_⟩
    simp only [List.getD_cons_zero]
    omega
  · exact ⟨Or.inr (Or.inl (by simp [le16])), by simp⟩
  · exact ⟨Or.inr (Or.inr (by simp [le32])), by simp⟩
  · omega

/-- `WriteBE32` (utils.cpp lines 191–193): the four bytes of `x`, most
significant first; each store into an `unsigned char` truncates mod 256. -/
def WriteBE32 (x : Nat) : List Nat :=
  [(x >>> 24) % 256, (x >>> 16) % 256, (x >>> 8) % 256, x % 256]

/-- `WriteBE64` (utils.cpp lines 186–189): the eight bytes of `x`, most
significant first. -/
def WriteBE64 (x : Nat) : List Nat :=
  [(x >>> 56) % 256, (x >>> 48) % 256, (x >>> 40) % 256, (x >>> 32) % 256,
   (x >>> 24) % 256, (x >>> 16) % 256, (x >>> 8) % 256, x % 256]

/-- `sha256_init` (utils.cpp lines 195–204): the initial hash state words. -/
def sha256_init : List Nat :=
  [0x6a09e667, 0xbb67ae85, 0x3c6ef372, 0xa54ff53a,
   0x510e527f, 0x9b05688c, 0x1f83d9ab, 0x5be0cd19]

/-- `sha256_done` (utils.cpp lines 206–215): serializes the eight state words
big-endian into 32 bytes, one `WriteBE32` per word. -/
def sha256_done (state : List Nat) : List Nat :=
  WriteBE32 (state.getD 0 0) ++ WriteBE32 (state.getD 1 0) ++
  WriteBE32 (state.getD 2 0) ++ WriteBE32 (state.getD 3 0) ++
  WriteBE32 (state.getD 4 0) ++ WriteBE32 (state.getD 5 0) ++
  WriteBE32 (state.getD 6 0) ++ WriteBE32 (state.getD 7 0)

/-- Driver for the external `SHA256(void*, uint32_t[8], uint64_t)` routine:
`n` 64-byte blocks of `data` are folded through the compression function
`compress`, which stays an abstract parameter — its implementation is not
part of this repository's sources, and every property proved below holds for
any compression function. -/
def SHA256blocks (compress : List Nat → List Nat → List Nat) :
    List Nat → List Nat → Nat → List Nat
  | state, _, 0 => state
  | state, data, n + 1 =>
      SHA256blocks compress (compress state (data.take 64)) (data.drop 64) n

/-- The `pad_count` computation of `double_sha256` (utils.cpp line 225). -/
def pad_count (byte_count : Nat) : Nat := 1 + (119 - byte_count % 64) % 64

/-- The first-pass padded buffer built by `double_sha256` (utils.cpp lines
226–231): the input, one `0x80` byte, `pad_count - 1` zero bytes, then the
big-endian 64-bit bit count `byte_count << 3` (a `uint64_t` shift, reduced
modulo `2 ^ 64`). -/
def sha256_pad (input : List Nat) : List Nat :=
  input ++ [0x80] ++ List.replicate (pad_count input.length - 1) 0 ++
    WriteBE64 ((input.length <<< 3) % 2 ^ 64)

/-- `double_sha256` (utils.cpp lines 217–248, the raw-`SHA256` build): pad the
input, compress `(byte_count + pad_count + 8) / 64` blocks, serialize, then
build the fixed second-pass block (32-byte digest, `0x80`, 23 zero bytes,
bit count 256) and compress once more. -/
def double_sha256 (compress : List Nat → List Nat → List Nat)
    (input : List Nat) : List Nat :=
  let byte_count := input.length
  let data := sha256_pad input
  let state := SHA256blocks compress sha256_init data
    ((byte_count + pad_count byte_count + 8) / 64)
  let digest1 := sha256_done state
  let block2 := digest1 ++ [0x80] ++ List.replicate 23 0 ++ WriteBE64 (32 <<< 3)
  sha256_done (SHA256blocks compress sha256_init block2 1)

/-- `double_sha256_two_32_inputs` (utils.cpp lines 250–279, the raw-`SHA256`
build): the two 32-byte inputs are copied into a 128-byte buffer (`memcpy`
takes exactly 32 bytes of each), padded in place with `0x80`, 55 zero bytes
and the bit count 512, compressed as two blocks, and finished exactly as the
general path's second pass. -/
def double_sha256_two_32_inputs (compress : List Nat → List Nat → List Nat)
    (input input2 : List Nat) : List Nat :=
  let data := input.take 32 ++ input2.take 32 ++ [0x80] ++
    List.replicate 55 0 ++ WriteBE64 (64 <<< 3)
  let state := SHA256blocks compress sha256_init data 2
  let digest1 := sha256_done state
  let block2 := digest1 ++ [0x80] ++ List.replicate 23 0 ++ WriteBE64 (32 <<< 3)
  sha256_done (SHA256blocks compress sha256_init block2 1)

/-- Claim C8: for every input length the first-pass buffer is the input, one
`0x80` byte, zero bytes up to 56 mod 64 (the offset of the bit-count field is
`byte_count + pad_count ≡ 56 (mod 64)`), then the 8-byte bit count; its total
length is `byte_count + pad_count + 8`, a positive multiple of 64, so the
`assert((byte_count + pad_count + 8) % 64 == 0)` of `double_sha256` never
fires. -/
theorem double_sha256_padding (input : List Nat) :
    (sha256_pad input).length = input.length + pad_count input.length + 8 ∧
    (input.length + 1 + (pad_count input.length - 1)) % 64 = 56 ∧
    (input.length + pad_count input.length + 8) % 64 = 0 ∧
    0 < (sha256_pad input).length := by
  have hlen : (sha256_pad input).length =
      input.length + (1 + ((pad_count input.length - 1) + 8)) := by
    simp [sha256_pad, WriteBE64]
    omega
  simp only [pad_count] at hlen ⊢
  refine ⟨?_, ?_, ?_, ?_⟩ <;> omega

/-- Claim C4: the two-input fast path agrees bit for bit with the general
path on the 64-byte concatenation, whatever the compression function. -/
theorem fast_path_equivalence (compress : List Nat → List Nat → List Nat)
    (a b : List Nat) (ha : a.length = 32) (hb : b.length = 32) :
    double_sha256_two_32_inputs compress a b =
      double_sha256 compress (a ++ b) := by
  have hta : a.take 32 = a := List.take_of_length_le (by omega)
  have htb : b.take 32 = b := List.take_of_length_le (by omega)
  have hab : (a ++ b).length = 64 := by simp [ha, hb]
  have hpc : pad_count 64 = 56 := rfl
  have h512 : ((64 : Nat) <<< 3) % 2 ^ 64 = 64 <<< 3 := by decide
  simp only [double_sha256_two_32_inputs, double_sha256, sha256_pad, hta, htb,
    hab, hpc, h512]

/-- Witness for `fast_path_equivalence` at two all-zero 32-byte digests. -/
theorem fast_path_equivalence_w :
    (List.replicate 32 0).length = 32 ∧
    double_sha256_two_32_inputs (fun s _ => s) (List.replicate 32 0)
        (List.replicate 32 0) =
      double_sha256 (fun s _ => s)
        (List.replicate 32 0 ++ List.replicate 32 0) :=
  ⟨by decide,
   fast_path_equivalence (fun s _ => s) (List.replicate 32 0)
     (List.replicate 32 0) (by decide) (by decide)⟩

/-- Writes `src` over `buf` starting at byte offset `off`: the effect of one
`memcpy`/`strcpy`/field store into the header region (the stores of
`prepare_message` keep `off + src.length` within the region for commands
shorter than 20 bytes). -/
def writeBytes (buf : List Nat) (off : Nat) (src : List Nat) : List Nat :=
  buf.take off ++ src ++ buf.drop (off + src.length)

/-- Modelled from the spec: the `bitcoin_msg_header` layout and the
`BITCOIN_MAGIC` constant come from `utils.h`, which is not among the source
files.  Spec §6 fixes the layout — magic at offset 0 (4 bytes), null-padded
command at 4 (12 bytes), little-endian length at 16 (4 bytes), checksum at
20 (4 bytes) — and describes the magic only as the network's fixed 4-byte
constant; the Bitcoin main-network value is used here, its exact bytes being
immaterial to every claim. -/
def BITCOIN_MAGIC : List Nat := [0xf9, 0xbe, 0xb4, 0xd9]

/-- `prepare_message` (utils.cpp lines 165–177), restricted to the 24-byte
header region it fills: `command` is the NUL-free byte string behind the
`const char*` argument, `payload` the `datalen` bytes following the header.
The five stores are modelled in source order — `memset` of the command
field, `strcpy` (the command bytes plus one terminating 0 byte, with no
length check), the length store (`htole32` of a `size_t`, a conversion to
`uint32_t` mod `2 ^ 32`), the magic store, and the checksum copy (first 4
bytes of the payload's double SHA-256).  For commands shorter than 20 bytes
the stores cover every byte of the region, so the caller-provided initial
contents are irrelevant and taken to be zero. -/
def prepare_message (compress : List Nat → List Nat → List Nat)
    (command payload : List Nat) : List Nat :=
  let h0 := List.replicate 24 0
  let h1 := writeBytes h0 4 (List.replicate 12 0)
  let h2 := writeBytes h1 4 (command ++ [0])
  let h3 := writeBytes h2 16 (le32 (payload.length % 4294967296))
  let h4 := writeBytes h3 0 BITCOIN_MAGIC
  writeBytes h4 20 ((double_sha256 compress payload).take 4)

/-- The `u32` a little-endian 4-byte length field denotes (spec §6:
"little-endian u32, payload byte count"); states what the length field
decodes back to. -/
def le32_decode (bs : List Nat) : Nat :=
  bs.getD 0 0 + 256 * bs.getD 1 0 + 65536 * bs.getD 2 0 +
    16777216 * bs.getD 3 0

theorem length_double_sha256 (compress : List Nat → List Nat → List Nat)
    (input : List Nat) : (double_sha256 compress input).length = 32 := by
  simp [double_sha256, sha256_done, WriteBE32]

theorem le32_decode_le32 (x : Nat) : le32_decode (le32 x) = x % 4294967296 := by
  have h : le32_decode (le32 x) =
      x % 256 + 256 * (x / 256 % 256) + 65536 * (x / 65536 % 256) +
        16777216 * (x / 16777216 % 256) := rfl
  rw [h]
  omega

theorem writeBytes_replicate (n off : Nat) (src : List Nat)
    (hof : off + src.length ≤ n) :
    writeBytes (List.replicate n 0) off src =
      List.replicate off 0 ++ src ++
        List.replicate (n - off - src.length) 0 := by
  unfold writeBytes
  rw [List.take_replicate, List.drop_replicate]
  have e1 : min off n = off := by omega
  have e2 : n - (off + src.length) = n - off - src.length := by omega
  rw [e1, e2]

/-- Closed form of the header built by `prepare_message` for commands of at
most 13 bytes: magic, the first 12 command bytes zero-padded to 12, the
little-endian length mod `2 ^ 32`, and the first 4 checksum bytes.  (The
terminating 0 written by `strcpy` — and, for a 13-byte command, its 13th
byte — land in the length field's bytes and are overwritten by the
subsequent length store.) -/
theorem prepare_message_eq (compress : List Nat → List Nat → List Nat)
    (command payload : List Nat) (h : command.length ≤ 13) :
    prepare_message compress command payload =
      BITCOIN_MAGIC ++ command.take 12 ++
        List.replicate (12 - command.length) 0 ++
        le32 (payload.length % 4294967296) ++
        (double_sha256 compress payload).take 4 := by
  have hCl : ((double_sha256 compress payload).take 4).length = 4 := by
    rw [List.length_take, length_double_sha256]
    omega
  have hle : (le32 (payload.length % 4294967296)).length = 4 := by simp [le32]
  have t1 : writeBytes (List.replicate 24 0) 4 (List.replicate 12 0) =
      List.replicate 24 0 := rfl
  have t2 : writeBytes (List.replicate 24 0) 4 (command ++ [0]) =
      List.replicate 4 0 ++
        (command ++ List.replicate (20 - command.length) 0) := by
    rw [writeBytes_replicate 24 4 _
      (by simp only [List.length_append, List.length_cons, List.length_nil]; omega)]
    have e1 : 24 - 4 - (command ++ [0]).length = 19 - command.length := by
      simp only [List.length_append, List.length_cons, List.length_nil]
      omega
    rw [e1, List.append_assoc, List.append_assoc, List.singleton_append,
      ← List.replicate_succ]
    have e2 : List.replicate (19 - command.length + 1) (0 : Nat) =
        List.replicate (20 - command.length) 0 := by
      congr 1
      omega
    rw [e2]
  have emin : min (12 - command.length) (20 - command.length) =
      12 - command.length := by omega
  have erep : 20 - command.length - (16 - command.length) = 4 := by omega
  have hd16 : command.drop 16 = [] := List.drop_of_length_le (by omega)
  have htake : (List.replicate 4 0 ++
      (command ++ List.replicate (20 - command.length) 0)).take 16 =
      List.replicate 4 0 ++ (command.take 12 ++
        List.replicate (12 - command.length) 0) := by
    simp [List.take_append_eq_append_take, emin]
  have hdrop : (List.replicate 4 0 ++
      (command ++ List.replicate (20 - command.length) 0)).drop 20 =
      List.replicate 4 0 := by
    simp [List.drop_append_eq_append_drop, hd16, erep]
  have t3 : writeBytes (List.replicate 4 0 ++
      (command ++ List.replicate (20 - command.length) 0)) 16
      (le32 (payload.length % 4294967296)) =
      (List.replicate 4 0 ++ (command.take 12 ++
        List.replicate (12 - command.length) 0)) ++
        (le32 (payload.length % 4294967296) ++ List.replicate 4 0) := by
    unfold writeBytes
    rw [hle, htake, hdrop, List.append_assoc]
  have t4 : writeBytes ((List.replicate 4 0 ++ (command.take 12 ++
      List.replicate (12 - command.length) 0)) ++
      (le32 (payload.length % 4294967296) ++ List.replicate 4 0)) 0
      BITCOIN_MAGIC =
      BITCOIN_MAGIC ++ (command.take 12 ++
        (List.replicate (12 - command.length) 0 ++
          (le32 (payload.length % 4294967296) ++ List.replicate 4 0))) := by
    unfold writeBytes
    rw [List.take_zero, List.nil_append]
    congr 1
    rw [List.append_assoc, List.append_assoc]
    exact List.drop_left' (by simp [BITCOIN_MAGIC])
  simp only [prepare_message]
  rw [t1, t2, t3, t4]
  unfold writeBytes
  rw [hCl]
  have hsplit : BITCOIN_MAGIC ++ (command.take 12 ++
      (List.replicate (12 - command.length) 0 ++
        (le32 (payload.length % 4294967296) ++ List.replicate 4 0))) =
      (BITCOIN_MAGIC ++ (command.take 12 ++
        (List.replicate (12 - command.length) 0 ++
          le32 (payload.length % 4294967296)))) ++ List.replicate 4 0 := by
    simp [List.append_assoc]
  rw [hsplit]
  have hP : (BITCOIN_MAGIC ++ (command.take 12 ++
      (List.replicate (12 - command.length) 0 ++
        le32 (payload.length % 4294967296)))).length = 20 := by
    simp [BITCOIN_MAGIC, hle]
    omega
  rw [List.take_left' hP]
  rw [List.drop_of_length_le (by simp [BITCOIN_MAGIC, hle]; omega)]
  simp [List.append_assoc]

/-- What the 4-byte length field at offset 16 decodes to, for any command of
at most 13 bytes: the payload byte count reduced mod `2 ^ 32` (the `size_t`
to `uint32_t` conversion in `header->length = htole32(datalen)`). -/
theorem prepare_message_length_field (compress : List Nat → List Nat → List Nat)
    (command payload : List Nat) (hc : command.length ≤ 13) :
    le32_decode (((prepare_message compress command payload).drop 16).take 4) =
      payload.length % 4294967296 := by
  rw [prepare_message_eq compress command payload hc]
  have hpre : (BITCOIN_MAGIC ++ command.take 12 ++
      List.replicate (12 - command.length) 0).length = 16 := by
    simp [BITCOIN_MAGIC]
    omega
  rw [List.append_assoc, List.drop_left' hpre,
    List.take_left' (by simp [le32]), le32_decode_le32]
  omega

/-- Claim C5, amended (payloads below `2 ^ 32` bytes; a payload of exactly
`2 ^ 32` zero bytes wraps the length field to 0, see the counterexample):
for every command of at most 12 bytes and payload shorter than `2 ^ 32`
bytes, the header is the fixed magic, the command zero-padded to 12 bytes,
the payload byte count as 4-byte little-endian, and the first 4 bytes of
the payload's double SHA-256. -/
theorem framing_header_fields (compress : List Nat → List Nat → List Nat)
    (command payload : List Nat) (hc : command.length ≤ 12)
    (hp : payload.length < 4294967296) :
    prepare_message compress command payload =
      BITCOIN_MAGIC ++ command ++ List.replicate (12 - command.length) 0 ++
        le32 payload.length ++ (double_sha256 compress payload).take 4 := by
  have h := prepare_message_eq compress command payload (by omega)
  rwa [List.take_of_length_le hc, Nat.mod_eq_of_lt hp] at h

/-- Witness for `framing_header_fields`: command "ping", empty payload. -/
theorem framing_header_fields_w :
    ([112, 105, 110, 103] : List Nat).length ≤ 12 ∧
    ([] : List Nat).length < 4294967296 ∧
    prepare_message (fun s _ => s) [112, 105, 110, 103] [] =
      BITCOIN_MAGIC ++ [112, 105, 110, 103] ++
        List.replicate (12 - ([112, 105, 110, 103] : List Nat).length) 0 ++
        le32 ([] : List Nat).length ++
        (double_sha256 (fun s _ => s) []).take 4 :=
  ⟨by decide, by decide,
   framing_header_fields (fun s _ => s) [112, 105, 110, 103] []
     (by decide) (by decide)⟩

/-- Claim C5, counterexample: with command "ping" and a payload of `2 ^ 32`
zero bytes, the produced length field decodes to 0, not to the payload's
byte count — `htole32(datalen)` silently wraps, so the claim's "every
payload" fails at this input. -/
theorem framing_length_field_wraps :
    le32_decode (((prepare_message (fun s _ => s) [112, 105, 110, 103]
      (List.replicate 4294967296 0)).drop 16).take 4) = 0 ∧
    (List.replicate 4294967296 (0 : Nat)).length = 4294967296 := by
  constructor
  · rw [prepare_message_length_field _ _ _ (by decide),
      List.length_replicate, Nat.mod_self]
  · rw [List.length_replicate]

/-- Claim C6, amended: `prepare_message` has no length check and no failure
path at all — there is no `CommandTooLong` error in the code.  A 13-byte
command is processed rather than rejected: its first 12 bytes fill the
command field (the overflowing 13th byte and the `strcpy` terminator land in
the length field's bytes and are overwritten by the subsequent length
store).  Commands of at most 12 bytes are zero-padded to the right
(`framing_header_fields`). -/
theorem framer_accepts_long_command (compress : List Nat → List Nat → List Nat)
    (command payload : List Nat) (h13 : command.length = 13) :
    prepare_message compress command payload =
      BITCOIN_MAGIC ++ command.take 12 ++
        le32 (payload.length % 4294967296) ++
        (double_sha256 compress payload).take 4 := by
  have h := prepare_message_eq compress command payload (by omega)
  rw [h13] at h
  simpa using h

/-- Witness for `framer_accepts_long_command` at a 13-byte command. -/
theorem framer_accepts_long_command_w :
    (List.replicate 13 97 : List Nat).length = 13 ∧
    prepare_message (fun s _ => s) (List.replicate 13 97) [7] =
      BITCOIN_MAGIC ++ (List.replicate 13 97 : List Nat).take 12 ++
        le32 (([7] : List Nat).length % 4294967296) ++
        (double_sha256 (fun s _ => s) [7]).take 4 :=
  ⟨by decide,
   framer_accepts_long_command (fun s _ => s) (List.replicate 13 97) [7]
     (by decide)⟩

/-- Claim C6, counterexample: called with a 13-byte command (13 times `'a'`),
the framer does not fail — it returns a completely ordinary header whose
command field holds the first 12 bytes; no `CommandTooLong` is reported to
the caller. -/
theorem framer_processes_13_byte_command :
    prepare_message (fun s _ => s) (List.replicate 13 97) [] =
      [0xf9, 0xbe, 0xb4, 0xd9,
       97, 97, 97, 97, 97, 97, 97, 97, 97, 97, 97, 97,
       0, 0, 0, 0,
       0x6a, 0x09, 0xe6, 0x67] := by
  decide

/-- Claim C7, amended: `prepare_message` performs no payload-size check and
has no `PayloadTooLarge` error; the length field always holds the payload
byte count reduced mod `2 ^ 32` (silent wraparound past `2 ^ 32 - 1`), and
only for payloads below `2 ^ 32` bytes does the 4-byte little-endian field
decode back to exactly the payload's byte count. -/
theorem framing_length_no_check (compress : List Nat → List Nat → List Nat)
    (command payload : List Nat) (hc : command.length ≤ 13) :
    le32_decode (((prepare_message compress command payload).drop 16).take 4) =
      payload.length % 4294967296 ∧
    (payload.length < 4294967296 →
      le32_decode (((prepare_message compress command payload).drop 16).take 4) =
        payload.length) := by
  have h := prepare_message_length_field compress command payload hc
  exact ⟨h, fun hp => by rw [h, Nat.mod_eq_of_lt hp]⟩

/-- Witness for `framing_length_no_check`: command "ping", payload `[5]`. -/
theorem framing_length_no_check_w :
    ([112, 105, 110, 103] : List Nat).length ≤ 13 ∧
    (le32_decode (((prepare_message (fun s _ => s) [112, 105, 110, 103]
        [5]).drop 16).take 4) = ([5] : List Nat).length % 4294967296 ∧
     (([5] : List Nat).length < 4294967296 →
       le32_decode (((prepare_message (fun s _ => s) [112, 105, 110, 103]
         [5]).drop 16).take 4) = ([5] : List Nat).length)) :=
  ⟨by decide,
   framing_length_no_check (fun s _ => s) [112, 105, 110, 103] [5] (by decide)⟩

/-- Claim C7, counterexample: a payload of `2 ^ 32 + 1` zero bytes — length
exceeding `2 ^ 32 - 1` — is not rejected: the framer produces a header whose
length field decodes to 1, a silent wraparound instead of the claimed
`PayloadTooLarge` failure. -/
theorem framer_accepts_huge_payload :
    le32_decode (((prepare_message (fun s _ => s) [116, 120]
      (List.replicate 4294967297 0)).drop 16).take 4) = 1 ∧
    (List.replicate 4294967297 (0 : Nat)).length = 4294967297 := by
  constructor
  · rw [prepare_message_length_field _ _ _ (by decide),
      List.length_replicate]
  · rw [List.length_replicate]

end RelayNode
